import Mathlib

/-!
Shallow embedding of the proposal-discovery endpoint
(`tequilapi/endpoints/proposals.go`): the query translator
(`parsePriceBound`), the DTO projection (`proposalToRes`), the quality
correlator (`addProposalMetrics`) and the handler (`proposalsEndpoint.List`,
embedded as `listEndpoint`).  External collaborators (proposal repository,
quality finder) are parameters of the handler; the handler additionally
returns a trace recording which repository filters were passed and how many
times the quality finder was consulted.
-/

deriving instance DecidableEq for Except

/-- Connection-quality counters attached to a metric record.
Modelled from the spec: the `quality` package is not part of the sources;
the spec describes `connectCount` as `{success, fail, timeout}` counters. -/
structure ConnectCount where
  success : Nat
  fail : Nat
  timeout : Nat
deriving DecidableEq

/-- Identifier of the proposal a metric record talks about.
Modelled from the spec: a metric identifies a proposal by the
`(providerID, serviceType)` pair. -/
structure MetricProposalID where
  providerID : String
  serviceType : String
deriving DecidableEq

/-- One record returned by `QualityFinder.ProposalsMetrics`.
Modelled from the spec: `{proposalID, connectCount}`. -/
structure ConnectMetric where
  proposalID : MetricProposalID
  connectCount : ConnectCount
deriving DecidableEq

/-- Service location. Modelled from the spec data model: continent, country,
city, ASN, ISP, node type (the `market` package is not in the sources;
these are exactly the fields `proposalToRes` reads via `GetLocation`). -/
structure Location where
  continent : String
  country : String
  city : String
  asn : Int
  isp : String
  nodeType : String
deriving DecidableEq

/-- Access policy restricting consumers. Modelled from the spec:
`{id, source}` pairs. -/
structure AccessPolicy where
  id : String
  source : String
deriving DecidableEq

/-- Monetary amount. Modelled from the spec: `price: {amount, currency}`. -/
structure Money where
  amount : Nat
  currency : String
deriving DecidableEq

/-- Payment rate of a proposal.  `perTime` is a Go `time.Duration`, i.e. a
count of nanoseconds (modelled as a nonnegative count, per the spec's
unsigned rate model); `perByte` is a `uint64`.  Modelled from the spec and
from the accesses `GetRate().PerTime.Seconds()` / `GetRate().PerByte`
performed by `proposalToRes`. -/
structure PaymentRate where
  perTime : Nat
  perByte : Nat
deriving DecidableEq

/-- Payment method of a proposal. Modelled from the spec:
`{type, price, rate}`, read by `proposalToRes` via `GetType`, `GetPrice`,
`GetRate`. -/
structure PaymentMethod where
  methodType : String
  price : Money
  rate : PaymentRate
deriving DecidableEq

/-- A provider's proposal as returned by the repository. Modelled from the
spec data model; the fields are the ones `proposalToRes` projects. -/
structure ServiceProposal where
  id : Int
  providerID : String
  serviceType : String
  location : Location
  accessPolicies : Option (List AccessPolicy)
  paymentMethod : PaymentMethod
deriving DecidableEq

/-- Wire representation of a service location (`locationRes`). -/
structure locationRes where
  continent : String
  country : String
  city : String
  asn : Int
  isp : String
  nodeType : String
deriving DecidableEq

/-- Wire representation of a service definition (`serviceDefinitionRes`). -/
structure serviceDefinitionRes where
  locationOriginate : locationRes
deriving DecidableEq

/-- Wire representation of the metrics attached to a DTO (`metricsRes`). -/
structure metricsRes where
  connectCount : ConnectCount
deriving DecidableEq

/-- Wire representation of a payment rate (`paymentRateRes`): whole seconds
and bytes, both `uint64` on the wire. -/
structure paymentRateRes where
  perSeconds : Nat
  perBytes : Nat
deriving DecidableEq

/-- Wire representation of a payment method (`paymentMethodRes`). -/
structure paymentMethodRes where
  methodType : String
  price : Money
  rate : paymentRateRes
deriving DecidableEq

/-- Wire representation of a proposal (`proposalDTO`).  `metrics` and
`accessPolicies` are optional and omitted when `none`. -/
structure proposalDTO where
  id : Int
  providerID : String
  serviceType : String
  serviceDefinition : serviceDefinitionRes
  metrics : Option metricsRes
  accessPolicies : Option (List AccessPolicy)
  paymentMethod : paymentMethodRes
deriving DecidableEq

/-!
IEEE-754 binary64 arithmetic used by `time.Duration.Seconds()`.

Go's `Seconds` computes `float64(sec) + float64(nsec)/1e9` where
`sec := d / 1e9` and `nsec := d % 1e9`, and `proposalToRes` then converts
the result to `uint64` (truncation toward zero for nonnegative values).
We model binary64 round-to-nearest-even exactly over the rationals for
nonnegative values in the normal range (all values arising here lie well
inside it, so overflow and subnormals never occur).
-/

/-- Round-half-to-even of a rational to an integer. -/
def roundHalfEven (n : ℚ) : ℤ :=
  if n - ⌊n⌋ < 1 / 2 then ⌊n⌋
  else if 1 / 2 < n - ⌊n⌋ then ⌊n⌋ + 1
  else if ⌊n⌋ % 2 = 0 then ⌊n⌋ else ⌊n⌋ + 1

/-- Round-to-nearest-even of a nonnegative rational to the binary64 grid:
the significand grid at exponent `e = Int.log 2 x` has spacing
`2 ^ (e - 52)`.  Negative inputs do not arise in this development and are
clamped to `0`. -/
def rnd (x : ℚ) : ℚ :=
  if x ≤ 0 then 0
  else (roundHalfEven (x / 2 ^ (Int.log 2 x - 52)) : ℚ) * 2 ^ (Int.log 2 x - 52)

/-- Nanoseconds per second (`time.Second`). -/
def nsPerSec : Nat := 1000000000

/-- Exact value of `(time.Duration d).Seconds()` for a nonnegative duration
of `d` nanoseconds: `float64(d / 1e9) + float64(d % 1e9) / 1e9` with every
float64 operation rounded to nearest-even (`1e9` is itself exactly
representable). -/
def durationSeconds (d : Nat) : ℚ :=
  rnd (rnd ((d / nsPerSec : Nat) : ℚ) +
    rnd (rnd ((d % nsPerSec : Nat) : ℚ) / ((nsPerSec : Nat) : ℚ)))

/-- Go conversion `uint64(x)` of a nonnegative float64 value: truncation
toward zero. -/
def goUint64OfFloat (x : ℚ) : Nat := (⌊x⌋).toNat

/-- Value of `uint64(p.PaymentMethod.GetRate().PerTime.Seconds())` for a
duration of `d` nanoseconds. -/
def perSecondsOfDuration (d : Nat) : Nat := goUint64OfFloat (durationSeconds d)

/-- DTO projection `proposalToRes`. -/
def proposalToRes (p : ServiceProposal) : proposalDTO :=
  { id := p.id
    providerID := p.providerID
    serviceType := p.serviceType
    serviceDefinition :=
      { locationOriginate :=
          { continent := p.location.continent
            country := p.location.country
            city := p.location.city
            asn := p.location.asn
            isp := p.location.isp
            nodeType := p.location.nodeType } }
    metrics := none
    accessPolicies := p.accessPolicies
    paymentMethod :=
      { methodType := p.paymentMethod.methodType
        price := p.paymentMethod.price
        rate :=
          { perSeconds := perSecondsOfDuration p.paymentMethod.rate.perTime
            perBytes := p.paymentMethod.rate.perByte } } }

/-- Key built by `addProposalMetrics` for both the metrics index and the
DTO lookup: plain concatenation `providerID + serviceType`. -/
def joinKey (providerID serviceType : String) : String :=
  providerID ++ serviceType

/-- The metrics index built by `addProposalMetrics`: a Go map populated by
iterating over `metrics` and inserting each record under `joinKey`; a later
insertion overwrites an earlier one with the same key.  The map is modelled
as its lookup function. -/
def metricsMap (metrics : List ConnectMetric) : String → Option ConnectMetric :=
  metrics.foldl
    (fun mp m => fun k =>
      if k = joinKey m.proposalID.providerID m.proposalID.serviceType then some m else mp k)
    (fun _ => none)

/-- Quality correlator `addProposalMetrics`: for each DTO, look its
concatenated key up in the metrics index and, on a hit, attach the record's
connect count. -/
def addProposalMetrics (proposals : List proposalDTO) (metrics : List ConnectMetric) :
    List proposalDTO :=
  proposals.map fun p =>
    match metricsMap metrics (joinKey p.providerID p.serviceType) with
    | some mc => { p with metrics := some { connectCount := mc.connectCount } }
    | none => p

/-- ProposalFilter passed to `proposal.Repository.Proposals`. Modelled from the
spec data model and the fields assigned in `List`. -/
structure ProposalFilter where
  providerID : String
  serviceType : String
  accessPolicyID : String
  accessPolicySource : String
  lowerGBPriceBound : Option Nat
  upperGBPriceBound : Option Nat
  lowerTimePriceBound : Option Nat
  upperTimePriceBound : Option Nat
  excludeUnsupported : Bool
deriving DecidableEq

/-- Incoming request: the query parameters the handler reads.  Go's
`Query().Get` returns `""` for an absent parameter, so each parameter is a
plain string with `""` for "not provided". -/
structure Request where
  fetchConnectCounts : String
  upperTimePriceBound : String
  lowerTimePriceBound : String
  upperGBPriceBound : String
  lowerGBPriceBound : String
  providerID : String
  serviceType : String
  accessPolicyID : String
  accessPolicySource : String
deriving DecidableEq

/-- Quoting of the offending input inside a `strconv` error, modelled for
plain printable strings without escape sequences (the only ones arising
here). -/
def goQuote (s : String) : String := "\"" ++ s ++ "\""

/-- Message of the `*strconv.NumError` returned by
`strconv.ParseUint(s, 10, 64)`:
`strconv.ParseUint: parsing "<s>": <reason>`.  Note that it contains the
offending value, never the query-parameter name. -/
def parseUintErr (s reason : String) : String :=
  "strconv.ParseUint: parsing " ++ goQuote s ++ ": " ++ reason

/-- Numeric value of a digit string. -/
def digitsVal (s : String) : Nat :=
  s.toList.foldl (fun a c => 10 * a + (c.toNat - 48)) 0

/-- Behaviour of `strconv.ParseUint(s, 10, 64)`: accepts one or more ASCII
decimal digits whose value fits in 64 bits; empty strings and any
non-digit character are a syntax error, values `≥ 2^64` a range error. -/
def parseUint64 (s : String) : Except String Nat :=
  if s = "" then .error (parseUintErr s "invalid syntax")
  else if s.toList.all (fun c => c.isDigit) then
    if digitsVal s < 2 ^ 64 then .ok (digitsVal s)
    else .error (parseUintErr s "value out of range")
  else .error (parseUintErr s "invalid syntax")

/-- Query translator `parsePriceBound`: an empty (absent) parameter is no
constraint; otherwise the value must parse as a base-10 `uint64`, and the
parse error is propagated unchanged. -/
def parsePriceBound (bound : String) : Except String (Option Nat) :=
  if bound = "" then .ok none
  else
    match parseUint64 bound with
    | .ok v => .ok (some v)
    | .error e => .error e

/-- The four price bounds parsed in the order the handler checks them
(upper time, lower time, upper GB, lower GB); the first failure
short-circuits with its error, exactly like the four early returns in
`List`. -/
def parseBounds (req : Request) :
    Except String (Option Nat × Option Nat × Option Nat × Option Nat) :=
  match parsePriceBound req.upperTimePriceBound with
  | .error e => .error e
  | .ok utp =>
    match parsePriceBound req.lowerTimePriceBound with
    | .error e => .error e
    | .ok ltp =>
      match parsePriceBound req.upperGBPriceBound with
      | .error e => .error e
      | .ok ugb =>
        match parsePriceBound req.lowerGBPriceBound with
        | .error e => .error e
        | .ok lgb => .ok (utp, ltp, ugb, lgb)

/-- The filter the handler builds for the repository call. -/
def filterOf (req : Request) (utp ltp ugb lgb : Option Nat) : ProposalFilter :=
  { providerID := req.providerID
    serviceType := req.serviceType
    accessPolicyID := req.accessPolicyID
    accessPolicySource := req.accessPolicySource
    lowerGBPriceBound := lgb
    upperGBPriceBound := ugb
    lowerTimePriceBound := ltp
    upperTimePriceBound := utp
    excludeUnsupported := true }

/-- The response body `proposalsRes`.  The `proposals` field is a Go slice
serialized by `encoding/json`: `none` models a nil slice (marshalled as
JSON `null`), `some l` a non-nil slice (marshalled as a JSON array). -/
structure proposalsRes where
  proposals : Option (List proposalDTO)
deriving DecidableEq

/-- What the handler writes to the response: an error status with the error
value handed to `utils.SendError` (any rendering of the body is a function
of these two), or a 200 with a `proposalsRes` body. -/
inductive Response where
  | error (status : Nat) (message : String)
  | ok (body : proposalsRes)
deriving DecidableEq

/-- Whether a response is a 200 with a body. -/
def Response.isOk : Response → Bool
  | .ok _ => true
  | .error _ _ => false

/-- Go `append` on a possibly-nil slice of DTOs. -/
def goAppend (s : Option (List proposalDTO)) (x : proposalDTO) : Option (List proposalDTO) :=
  match s with
  | none => some [x]
  | some l => some (l ++ [x])

/-- Observable collaborator interactions of one request: the filters passed
to `proposalRepository.Proposals` (in order) and the number of
`qualityProvider.ProposalsMetrics()` calls. -/
structure Trace where
  repoCalls : List ProposalFilter
  qualityCalls : Nat
deriving DecidableEq

/-- The handler `proposalsEndpoint.List` (named `listEndpoint` here since
`List` is taken).  `repo` is the proposal repository; `quality` is the list
`ProposalsMetrics()` would return.  Mirrors the source line by line: read
the flag, parse the four bounds with early 400 returns, call the
repository once (500 on error), build the DTO slice starting from an empty
non-nil slice, correlate metrics only when the flag equals `"true"`, and
write the body. -/
def listEndpoint (repo : ProposalFilter → Except String (List ServiceProposal))
    (quality : List ConnectMetric) (req : Request) : Response × Trace :=
  match parseBounds req with
  | .error e => (.error 400 e, { repoCalls := [], qualityCalls := 0 })
  | .ok (utp, ltp, ugb, lgb) =>
    match repo (filterOf req utp ltp ugb lgb) with
    | .error e =>
      (.error 500 e, { repoCalls := [filterOf req utp ltp ugb lgb], qualityCalls := 0 })
    | .ok proposals =>
      if req.fetchConnectCounts = "true" then
        (.ok { proposals := (Option.map (fun l => addProposalMetrics l quality)
            (proposals.foldl (fun acc p => goAppend acc (proposalToRes p)) (some []))) },
          { repoCalls := [filterOf req utp ltp ugb lgb], qualityCalls := 1 })
      else
        (.ok { proposals := proposals.foldl (fun acc p => goAppend acc (proposalToRes p)) (some []) },
          { repoCalls := [filterOf req utp ltp ugb lgb], qualityCalls := 0 })

/-- A price-bound parameter that is present, non-empty and malformed. -/
def badBound (s : String) : Prop :=
  s ≠ "" ∧ (parseUint64 s).isOk = false

instance (s : String) : Decidable (badBound s) := by
  unfold badBound; infer_instance

/-- Value of the first malformed bound parameter in the order the handler
checks them, if any. -/
def firstBadBound (req : Request) : Option String :=
  if badBound req.upperTimePriceBound then some req.upperTimePriceBound
  else if badBound req.lowerTimePriceBound then some req.lowerTimePriceBound
  else if badBound req.upperGBPriceBound then some req.upperGBPriceBound
  else if badBound req.lowerGBPriceBound then some req.lowerGBPriceBound
  else none

/-!
Helper lemmas shared by several claim theorems.
-/

/-- The key a metric record is indexed under. -/
def metricKey (m : ConnectMetric) : String :=
  joinKey m.proposalID.providerID m.proposalID.serviceType

lemma metricsMap_foldl (ms : List ConnectMetric) (f : String → Option ConnectMetric)
    (k : String) :
    (ms.foldl (fun mp m => fun x => if x = metricKey m then some m else mp x) f) k =
      match ms.reverse.find? (fun m => metricKey m == k) with
      | some m => some m
      | none => f k := by
  induction ms generalizing f with
  | nil => simp
  | cons m ms ih =>
    rw [List.foldl_cons, ih, List.reverse_cons, List.find?_append]
    cases hf : ms.reverse.find? (fun m => metricKey m == k) with
    | some m2 => simp [Option.or]
    | none =>
      simp only [Option.none_or]
      rw [List.find?_cons]
      by_cases hk : metricKey m = k
      · simp [hk]
      · have : (metricKey m == k) = false := by simp [hk]
        simp [this, Ne.symm hk]

lemma metricsMap_eq_revFind (ms : List ConnectMetric) (k : String) :
    metricsMap ms k = ms.reverse.find? (fun m => metricKey m == k) := by
  have h := metricsMap_foldl ms (fun _ => none) k
  unfold metricsMap metricKey joinKey
  unfold metricKey joinKey at h
  rw [h]
  cases ms.reverse.find? (fun m => m.proposalID.providerID ++ m.proposalID.serviceType == k) <;> rfl

lemma find?_congr_members {α : Type} (l : List α) (p q : α → Bool)
    (h : ∀ a ∈ l, p a = q a) : l.find? p = l.find? q := by
  induction l with
  | nil => rfl
  | cons a l ih =>
    rw [List.find?_cons, List.find?_cons, h a (List.mem_cons_self a l)]
    split
    · rfl
    · exact ih fun b hb => h b (List.mem_cons_of_mem a hb)

/-- Claim C1.  The code builds the metrics-index key and the DTO lookup key
by plain string concatenation of provider id and service type with no
separator, so two distinct `(providerID, serviceType)` pairs alias to the
same key: `("ab", "c")` and `("a", "bc")` both map to `"abc"`, contradicting
the requirement that key construction not alias distinct pairs. -/
theorem C1_key_concatenation_aliases :
    joinKey "ab" "c" = joinKey "a" "bc" ∧ ("ab", "c") ≠ (("a", "bc") : String × String) := by
  constructor
  · decide
  · decide

/-- Claim C10.  The metrics index is a map built by iterating the metrics
list in order and inserting each record under its concatenated key, a later
record overwriting an earlier one with the same key: the lookup therefore
returns the last record of the list bearing the key, and a DTO whose
concatenated key matches receives the connect counts of that last record. -/
theorem C10_last_record_wins :
    (∀ (ms : List ConnectMetric) (k : String),
      metricsMap ms k = ms.reverse.find? (fun m => metricKey m == k)) ∧
    (∀ (ps : List proposalDTO) (ms : List ConnectMetric),
      addProposalMetrics ps ms = ps.map fun p =>
        match ms.reverse.find? (fun m => metricKey m == joinKey p.providerID p.serviceType) with
        | some mc => { p with metrics := some { connectCount := mc.connectCount } }
        | none => p) := by
  refine ⟨metricsMap_eq_revFind, fun ps ms => ?_⟩
  unfold addProposalMetrics
  refine List.map_congr_left fun p _ => ?_
  rw [metricsMap_eq_revFind]

/-- A single DTO whose `(provider_id, service_type)` pair appears in no
metric record, but whose concatenated key aliases a record for a different
pair. -/
def dtoAliased : proposalDTO :=
  { id := 1
    providerID := "a"
    serviceType := "bc"
    serviceDefinition := { locationOriginate :=
      { continent := "", country := "", city := "", asn := 0, isp := "", nodeType := "" } }
    metrics := none
    accessPolicies := none
    paymentMethod :=
      { methodType := ""
        price := { amount := 0, currency := "" }
        rate := { perSeconds := 0, perBytes := 0 } } }

/-- A metric record for the pair `("ab", "c")`, a different pair from
`dtoAliased`'s `("a", "bc")` but with the same concatenated key. -/
def metricAliased : ConnectMetric :=
  { proposalID := { providerID := "ab", serviceType := "c" }
    connectCount := { success := 5, fail := 0, timeout := 0 } }

/-- Counterexample to claim C3 as stated: the DTO's pair `("a", "bc")`
appears in no metric record (the only record is for `("ab", "c")`), yet the
correlator attaches that record's connect count to it, because both pairs
concatenate to the key `"abc"`. -/
theorem C3_aliasing_counterexample :
    (addProposalMetrics [dtoAliased] [metricAliased]).map (fun p => p.metrics) =
        [some { connectCount := metricAliased.connectCount }] ∧
    ¬ (metricAliased.proposalID.providerID = dtoAliased.providerID ∧
        metricAliased.proposalID.serviceType = dtoAliased.serviceType) := by
  constructor
  · decide
  · decide

/-- Claim C3, amended.  Provided no metric record's concatenated key aliases
a DTO of a different `(providerID, serviceType)` pair, the correlator gives
every DTO whose pair matches a metric record the connect count of the last
such record, leaves the metrics field of every DTO with no matching record
untouched (absent if it was absent), never fails (it is a total function),
and an empty metrics list enriches nothing. -/
theorem C3_exact_pair_correlation (ps : List proposalDTO) (ms : List ConnectMetric)
    (hnoalias : ∀ p ∈ ps, ∀ m ∈ ms,
      metricKey m = joinKey p.providerID p.serviceType →
      m.proposalID.providerID = p.providerID ∧ m.proposalID.serviceType = p.serviceType) :
    (addProposalMetrics ps ms = ps.map fun p =>
      match ms.reverse.find?
          (fun m => m.proposalID.providerID == p.providerID &&
            m.proposalID.serviceType == p.serviceType) with
      | some mc => { p with metrics := some { connectCount := mc.connectCount } }
      | none => p) ∧
    addProposalMetrics ps [] = ps := by
  constructor
  · unfold addProposalMetrics
    refine List.map_congr_left fun p hp => ?_
    rw [metricsMap_eq_revFind]
    rw [find?_congr_members ms.reverse _ _ ?_]
    intro m hm
    have hm2 : m ∈ ms := List.mem_reverse.mp hm
    by_cases hkey : metricKey m = joinKey p.providerID p.serviceType
    · obtain ⟨h1, h2⟩ := hnoalias p hp m hm2 hkey
      simp [hkey, h1, h2]
    · have h3 : ¬ (m.proposalID.providerID = p.providerID ∧
          m.proposalID.serviceType = p.serviceType) := by
        rintro ⟨h1, h2⟩
        exact hkey (by unfold metricKey joinKey; rw [h1, h2])
      rw [Bool.eq_iff_iff]
      simp only [beq_iff_eq, Bool.and_eq_true]
      constructor
      · intro hc; exact absurd hc hkey
      · intro hc; exact absurd hc h3
  · simp [addProposalMetrics, metricsMap]

/-- Witness DTO whose pair matches `metricMatching` exactly. -/
def dtoMatching : proposalDTO :=
  { dtoAliased with providerID := "0xP1", serviceType := "openvpn" }

/-- Witness metric record for the pair `("0xP1", "openvpn")`. -/
def metricMatching : ConnectMetric :=
  { proposalID := { providerID := "0xP1", serviceType := "openvpn" }
    connectCount := { success := 5, fail := 0, timeout := 0 } }

/-- Witness for C3: on a DTO and a record carrying the same exact pair, the
correlator attaches that record's connect count, and an empty metrics list
enriches nothing. -/
theorem C3_exact_pair_correlation_witness :
    (addProposalMetrics [dtoMatching] [metricMatching] = [dtoMatching].map fun p =>
      match [metricMatching].reverse.find?
          (fun m => m.proposalID.providerID == p.providerID &&
            m.proposalID.serviceType == p.serviceType) with
      | some mc => { p with metrics := some { connectCount := mc.connectCount } }
      | none => p) ∧
    addProposalMetrics [dtoMatching] [] = [dtoMatching] :=
  C3_exact_pair_correlation [dtoMatching] [metricMatching] (by decide)

lemma parsePriceBound_ok_of_not_bad (s : String) (h : ¬ badBound s) :
    ∃ a, parsePriceBound s = .ok a := by
  unfold parsePriceBound
  by_cases hs : s = ""
  · exact ⟨none, by simp [hs]⟩
  · cases hok : parseUint64 s with
    | ok v => exact ⟨some v, by simp [hs, hok]⟩
    | error e =>
      exact absurd ⟨hs, by rw [hok]; rfl⟩ h

lemma parsePriceBound_error_of_bad (s : String) (h : badBound s) :
    ∃ e, parseUint64 s = .error e ∧ parsePriceBound s = .error e := by
  obtain ⟨hs, hbad⟩ := h
  cases hok : parseUint64 s with
  | ok v => rw [hok] at hbad; simp [Except.toBool] at hbad
  | error e => exact ⟨e, rfl, by simp [parsePriceBound, hs, hok]⟩

/-- Claim C2, amended.  A request with a present, non-empty bound parameter
that does not parse as a base-10 `uint64` is answered with status 400
carrying the `strconv` parse error of the first failing parameter's value
(the error identifies the offending value, not the parameter name), and
neither the repository nor the quality finder is ever invoked. -/
theorem C2_bad_bound_rejected (repo : ProposalFilter → Except String (List ServiceProposal))
    (quality : List ConnectMetric) (req : Request)
    (h : badBound req.upperTimePriceBound ∨ badBound req.lowerTimePriceBound ∨
      badBound req.upperGBPriceBound ∨ badBound req.lowerGBPriceBound) :
    ∃ v e, firstBadBound req = some v ∧ parseUint64 v = .error e ∧
      listEndpoint repo quality req =
        (.error 400 e, { repoCalls := [], qualityCalls := 0 }) := by
  by_cases h1 : badBound req.upperTimePriceBound
  · obtain ⟨e, he, hpe⟩ := parsePriceBound_error_of_bad _ h1
    refine ⟨req.upperTimePriceBound, e, ?_, he, ?_⟩
    · unfold firstBadBound; rw [if_pos h1]
    · simp only [listEndpoint, parseBounds, hpe]
  · obtain ⟨a1, ha1⟩ := parsePriceBound_ok_of_not_bad _ h1
    by_cases h2 : badBound req.lowerTimePriceBound
    · obtain ⟨e, he, hpe⟩ := parsePriceBound_error_of_bad _ h2
      refine ⟨req.lowerTimePriceBound, e, ?_, he, ?_⟩
      · unfold firstBadBound; rw [if_neg h1, if_pos h2]
      · simp only [listEndpoint, parseBounds, ha1, hpe]
    · obtain ⟨a2, ha2⟩ := parsePriceBound_ok_of_not_bad _ h2
      by_cases h3 : badBound req.upperGBPriceBound
      · obtain ⟨e, he, hpe⟩ := parsePriceBound_error_of_bad _ h3
        refine ⟨req.upperGBPriceBound, e, ?_, he, ?_⟩
        · unfold firstBadBound; rw [if_neg h1, if_neg h2, if_pos h3]
        · simp only [listEndpoint, parseBounds, ha1, ha2, hpe]
      · obtain ⟨a3, ha3⟩ := parsePriceBound_ok_of_not_bad _ h3
        by_cases h4 : badBound req.lowerGBPriceBound
        · obtain ⟨e, he, hpe⟩ := parsePriceBound_error_of_bad _ h4
          refine ⟨req.lowerGBPriceBound, e, ?_, he, ?_⟩
          · unfold firstBadBound; rw [if_neg h1, if_neg h2, if_neg h3, if_pos h4]
          · simp only [listEndpoint, parseBounds, ha1, ha2, ha3, hpe]
        · rcases h with h | h | h | h <;> contradiction

/-- The request with no query parameters (Go's `Query().Get` yields `""`
for each). -/
def emptyRequest : Request :=
  { fetchConnectCounts := ""
    upperTimePriceBound := ""
    lowerTimePriceBound := ""
    upperGBPriceBound := ""
    lowerGBPriceBound := ""
    providerID := ""
    serviceType := ""
    accessPolicyID := ""
    accessPolicySource := "" }

/-- A repository that succeeds with no proposals. -/
def repoNil : ProposalFilter → Except String (List ServiceProposal) := fun _ => .ok []

/-- A repository that always fails. -/
def repoErr : ProposalFilter → Except String (List ServiceProposal) := fun _ => .error "boom"

/-- A request whose upper time bound is malformed. -/
def reqBadUpperTime : Request := { emptyRequest with upperTimePriceBound := "abc" }

/-- A request whose lower GB bound is malformed, with the same offending
value as `reqBadUpperTime`. -/
def reqBadLowerGB : Request := { emptyRequest with lowerGBPriceBound := "abc" }

/-- Witness for C2 at a concrete malformed request. -/
theorem C2_bad_bound_rejected_witness :
    listEndpoint repoNil [] reqBadUpperTime =
      (.error 400 (parseUintErr "abc" "invalid syntax"),
        { repoCalls := [], qualityCalls := 0 }) := by
  obtain ⟨v, e, hv, he, hres⟩ :=
    C2_bad_bound_rejected repoNil [] reqBadUpperTime (Or.inl (by decide))
  have hv2 : some ("abc" : String) = some v := by
    have hfb : firstBadBound reqBadUpperTime = some "abc" := by decide
    rw [← hfb, hv]
  have hv3 : v = "abc" := (Option.some.inj hv2).symm
  subst hv3
  have he2 : parseUint64 "abc" = .error (parseUintErr "abc" "invalid syntax") := by decide
  rw [he2] at he
  have he3 : parseUintErr "abc" "invalid syntax" = e := Except.error.inj he
  rw [← he3] at hres
  exact hres

/-- Counterexample to claim C2 as stated: two requests failing on different
parameters but with the same offending value receive byte-identical
responses, so the response cannot identify which parameter failed. -/
theorem C2_message_lacks_parameter_name :
    listEndpoint repoNil [] reqBadUpperTime = listEndpoint repoNil [] reqBadLowerGB ∧
    badBound reqBadUpperTime.upperTimePriceBound ∧
    ¬ badBound reqBadUpperTime.lowerGBPriceBound ∧
    badBound reqBadLowerGB.lowerGBPriceBound ∧
    ¬ badBound reqBadLowerGB.upperTimePriceBound := by
  refine ⟨by decide, by decide, by decide, by decide, by decide⟩

/-- Claim C4, amended.  Every request whose four bound parameters parse
makes exactly one repository call (with the translated filter), and if that
call fails the endpoint answers 500 with the opaque error, emits no
proposals array, and never consults the quality finder. -/
theorem C4_single_repo_call (repo : ProposalFilter → Except String (List ServiceProposal))
    (quality : List ConnectMetric) (req : Request) (utp ltp ugb lgb : Option Nat)
    (h : parseBounds req = .ok (utp, ltp, ugb, lgb)) :
    (listEndpoint repo quality req).2.repoCalls = [filterOf req utp ltp ugb lgb] ∧
    ∀ e, repo (filterOf req utp ltp ugb lgb) = .error e →
      listEndpoint repo quality req =
        (.error 500 e,
          { repoCalls := [filterOf req utp ltp ugb lgb], qualityCalls := 0 }) := by
  cases hr : repo (filterOf req utp ltp ugb lgb) with
  | error e2 =>
    constructor
    · simp only [listEndpoint, h, hr]
    · intro e he
      have : e2 = e := Except.error.inj he
      subst this
      simp only [listEndpoint, h, hr]
  | ok ps =>
    constructor
    · simp only [listEndpoint, h, hr]
      split <;> rfl
    · intro e he
      exact absurd he (by simp)

/-- Witness for C4 at a concrete request against a failing repository. -/
theorem C4_single_repo_call_witness :
    listEndpoint repoErr [] emptyRequest =
      (.error 500 "boom",
        { repoCalls := [filterOf emptyRequest none none none none], qualityCalls := 0 }) :=
  (C4_single_repo_call repoErr [] emptyRequest none none none none (by decide)).2 "boom" rfl

/-- Counterexample to claim C4 as stated: a request with a malformed bound
parameter makes zero repository calls, not exactly one. -/
theorem C4_no_repo_call_on_bad_bound :
    ((listEndpoint repoNil [] reqBadUpperTime).2.repoCalls).length ≠ 1 := by decide

lemma goAppend_foldl (ps : List ServiceProposal) (l : List proposalDTO) :
    ps.foldl (fun acc p => goAppend acc (proposalToRes p)) (some l) =
      some (l ++ ps.map proposalToRes) := by
  induction ps generalizing l with
  | nil => simp
  | cons p ps ih =>
    rw [List.foldl_cons]
    show ps.foldl _ (goAppend (some l) (proposalToRes p)) = _
    rw [show goAppend (some l) (proposalToRes p) = some (l ++ [proposalToRes p]) from rfl, ih]
    simp

/-- Success path of the handler: when the bounds parse and the repository
answers, the response is the projected (and, with the flag, enriched) list
and the trace records one repository call. -/
lemma listEndpoint_ok (repo : ProposalFilter → Except String (List ServiceProposal))
    (quality : List ConnectMetric) (req : Request) (utp ltp ugb lgb : Option Nat)
    (ps : List ServiceProposal)
    (hb : parseBounds req = .ok (utp, ltp, ugb, lgb))
    (hr : repo (filterOf req utp ltp ugb lgb) = .ok ps) :
    listEndpoint repo quality req =
      if req.fetchConnectCounts = "true"
      then (.ok { proposals := some (addProposalMetrics (ps.map proposalToRes) quality) },
            { repoCalls := [filterOf req utp ltp ugb lgb], qualityCalls := 1 })
      else (.ok { proposals := some (ps.map proposalToRes) },
            { repoCalls := [filterOf req utp ltp ugb lgb], qualityCalls := 0 }) := by
  simp only [listEndpoint, hb, hr, goAppend_foldl ps [], List.nil_append, Option.map_some']

/-- Claim C5.  The quality finder is consulted exactly once when the
request completes successfully and `fetch_connect_counts` is the literal
string `"true"` (case-sensitive string equality: any other value,
including `"True"` or `"1"`, counts as false), and never otherwise; and on
the success path the body is enriched by the correlator exactly when the
flag is that literal. -/
theorem C5_metrics_flag_literal_true
    (repo : ProposalFilter → Except String (List ServiceProposal))
    (quality : List ConnectMetric) (req : Request) :
    ((listEndpoint repo quality req).2.qualityCalls =
      if req.fetchConnectCounts = "true" ∧ (listEndpoint repo quality req).1.isOk = true
      then 1 else 0) ∧
    (∀ (utp ltp ugb lgb : Option Nat) (ps : List ServiceProposal),
      parseBounds req = .ok (utp, ltp, ugb, lgb) →
      repo (filterOf req utp ltp ugb lgb) = .ok ps →
      (listEndpoint repo quality req).1 =
        .ok ⟨some (if req.fetchConnectCounts = "true"
          then addProposalMetrics (ps.map proposalToRes) quality
          else ps.map proposalToRes)⟩) := by
  have h2 : ∀ (utp ltp ugb lgb : Option Nat) (ps : List ServiceProposal),
      parseBounds req = .ok (utp, ltp, ugb, lgb) →
      repo (filterOf req utp ltp ugb lgb) = .ok ps →
      (listEndpoint repo quality req).1 =
        .ok ⟨some (if req.fetchConnectCounts = "true"
          then addProposalMetrics (ps.map proposalToRes) quality
          else ps.map proposalToRes)⟩ := by
    intro utp ltp ugb lgb ps hb hr
    rw [listEndpoint_ok repo quality req utp ltp ugb lgb ps hb hr]
    by_cases hf : req.fetchConnectCounts = "true"
    · simp [hf]
    · simp [hf]
  refine ⟨?_, h2⟩
  cases hb : parseBounds req with
  | error e => simp [listEndpoint, hb, Response.isOk]
  | ok bs =>
    obtain ⟨utp, ltp, ugb, lgb⟩ := bs
    cases hr : repo (filterOf req utp ltp ugb lgb) with
    | error e => simp [listEndpoint, hb, hr, Response.isOk]
    | ok ps =>
      rw [listEndpoint_ok repo quality req utp ltp ugb lgb ps hb hr]
      by_cases hf : req.fetchConnectCounts = "true"
      · simp [hf, Response.isOk]
      · simp [hf, Response.isOk]

/-- A request whose metrics flag is the literal `"true"`. -/
def reqFlagTrue : Request := { emptyRequest with fetchConnectCounts := "true" }

/-- A request whose metrics flag is `"True"` (wrong case). -/
def reqFlagTrueCap : Request := { emptyRequest with fetchConnectCounts := "True" }

/-- Witness for C5: with the literal `"true"` the correlator runs (and the
quality finder is consulted once); with `"True"` it does not. -/
theorem C5_metrics_flag_literal_true_witness :
    (listEndpoint repoNil [metricMatching] reqFlagTrue).1 =
      .ok ⟨some (addProposalMetrics ([].map proposalToRes) [metricMatching])⟩ ∧
    (listEndpoint repoNil [metricMatching] reqFlagTrueCap).1 =
      .ok ⟨some (([] : List ServiceProposal).map proposalToRes)⟩ := by
  constructor
  · have h := (C5_metrics_flag_literal_true repoNil [metricMatching] reqFlagTrue).2
      none none none none [] (by decide) rfl
    rw [if_pos (by decide : reqFlagTrue.fetchConnectCounts = "true")] at h
    exact h
  · have h := (C5_metrics_flag_literal_true repoNil [metricMatching] reqFlagTrueCap).2
      none none none none [] (by decide) rfl
    rw [if_neg (by decide : ¬ reqFlagTrueCap.fetchConnectCounts = "true")] at h
    exact h

/-- Claim C6.  Whenever the endpoint answers 200, the `proposals` field of
the body is a non-nil slice (it serializes to a JSON array, possibly empty,
never `null`). -/
theorem C6_proposals_never_null
    (repo : ProposalFilter → Except String (List ServiceProposal))
    (quality : List ConnectMetric) (req : Request) (body : proposalsRes)
    (h : (listEndpoint repo quality req).1 = .ok body) :
    ∃ l, body.proposals = some l := by
  cases hb : parseBounds req with
  | error e => simp [listEndpoint, hb] at h
  | ok bs =>
    obtain ⟨utp, ltp, ugb, lgb⟩ := bs
    cases hr : repo (filterOf req utp ltp ugb lgb) with
    | error e => simp [listEndpoint, hb, hr] at h
    | ok ps =>
      rw [listEndpoint_ok repo quality req utp ltp ugb lgb ps hb hr] at h
      by_cases hf : req.fetchConnectCounts = "true"
      · rw [if_pos hf] at h
        have h2 := Response.ok.inj h
        exact ⟨addProposalMetrics (ps.map proposalToRes) quality, by rw [← h2]⟩
      · rw [if_neg hf] at h
        have h2 := Response.ok.inj h
        exact ⟨ps.map proposalToRes, by rw [← h2]⟩

/-- Witness for C6: a repository returning zero proposals still yields a
non-nil, empty array. -/
theorem C6_proposals_never_null_witness :
    ∃ l, (proposalsRes.mk (some [])).proposals = some l :=
  C6_proposals_never_null repoNil [] emptyRequest ⟨some []⟩ (by decide)

/-- Claim C8.  Every filter the handler passes to the repository has
`ExcludeUnsupported` hard-set to `true`; no request parameter influences
it. -/
theorem C8_exclude_unsupported_always_true
    (repo : ProposalFilter → Except String (List ServiceProposal))
    (quality : List ConnectMetric) (req : Request) (f : ProposalFilter)
    (h : f ∈ (listEndpoint repo quality req).2.repoCalls) :
    f.excludeUnsupported = true := by
  cases hb : parseBounds req with
  | error e => simp [listEndpoint, hb] at h
  | ok bs =>
    obtain ⟨utp, ltp, ugb, lgb⟩ := bs
    cases hr : repo (filterOf req utp ltp ugb lgb) with
    | error e =>
      simp [listEndpoint, hb, hr] at h
      rw [h]
      rfl
    | ok ps =>
      rw [listEndpoint_ok repo quality req utp ltp ugb lgb ps hb hr] at h
      by_cases hf : req.fetchConnectCounts = "true"
      · rw [if_pos hf] at h
        simp at h
        rw [h]
        rfl
      · rw [if_neg hf] at h
        simp at h
        rw [h]
        rfl

/-- Witness for C8 at a concrete request. -/
theorem C8_exclude_unsupported_always_true_witness :
    (filterOf emptyRequest none none none none).excludeUnsupported = true :=
  C8_exclude_unsupported_always_true repoNil [] emptyRequest
    (filterOf emptyRequest none none none none) (by decide)

/-- Claim C9.  A request with no parameters is answered with the
repository's list in the same length and order, each element the projection
of the corresponding proposal with identity on id, provider id, service
type, every location field, access policies, payment-method type, price and
byte rate, and with the metrics field absent. -/
theorem C9_no_params_identity_projection
    (repo : ProposalFilter → Except String (List ServiceProposal))
    (quality : List ConnectMetric) (ps : List ServiceProposal)
    (h : repo (filterOf emptyRequest none none none none) = .ok ps) :
    (listEndpoint repo quality emptyRequest).1 = .ok ⟨some (ps.map proposalToRes)⟩ ∧
    (ps.map proposalToRes).length = ps.length ∧
    (∀ i : Nat, (ps.map proposalToRes)[i]? = (ps[i]?).map proposalToRes) ∧
    ∀ p : ServiceProposal,
      (proposalToRes p).id = p.id ∧
      (proposalToRes p).providerID = p.providerID ∧
      (proposalToRes p).serviceType = p.serviceType ∧
      (proposalToRes p).serviceDefinition.locationOriginate.continent = p.location.continent ∧
      (proposalToRes p).serviceDefinition.locationOriginate.country = p.location.country ∧
      (proposalToRes p).serviceDefinition.locationOriginate.city = p.location.city ∧
      (proposalToRes p).serviceDefinition.locationOriginate.asn = p.location.asn ∧
      (proposalToRes p).serviceDefinition.locationOriginate.isp = p.location.isp ∧
      (proposalToRes p).serviceDefinition.locationOriginate.nodeType = p.location.nodeType ∧
      (proposalToRes p).accessPolicies = p.accessPolicies ∧
      (proposalToRes p).metrics = none ∧
      (proposalToRes p).paymentMethod.methodType = p.paymentMethod.methodType ∧
      (proposalToRes p).paymentMethod.price = p.paymentMethod.price ∧
      (proposalToRes p).paymentMethod.rate.perBytes = p.paymentMethod.rate.perByte := by
  refine ⟨?_, List.length_map ps proposalToRes, fun i => List.getElem?_map proposalToRes ps i,
    fun p => ⟨rfl, rfl, rfl, rfl, rfl, rfl, rfl, rfl, rfl, rfl, rfl, rfl, rfl, rfl⟩⟩
  have hb : parseBounds emptyRequest = .ok (none, none, none, none) := by decide
  rw [listEndpoint_ok repo quality emptyRequest none none none none ps hb h]
  rw [if_neg (by decide : ¬ emptyRequest.fetchConnectCounts = "true")]

/-- Witness proposal with an empty duration rate. -/
def propWitness : ServiceProposal :=
  { id := 5
    providerID := "0xP1"
    serviceType := "openvpn"
    location :=
      { continent := "EU", country := "NL", city := "Amsterdam"
        asn := 1, isp := "Telia", nodeType := "residential" }
    accessPolicies := none
    paymentMethod :=
      { methodType := "PER_TIME"
        price := { amount := 100, currency := "MYST" }
        rate := { perTime := 0, perByte := 7 } } }

/-- A repository returning exactly `propWitness`. -/
def repoOne : ProposalFilter → Except String (List ServiceProposal) :=
  fun _ => .ok [propWitness]

/-- Witness for C9 at a concrete repository with one proposal. -/
theorem C9_no_params_identity_projection_witness :
    (listEndpoint repoOne [] emptyRequest).1 = .ok ⟨some ([propWitness].map proposalToRes)⟩ :=
  (C9_no_params_identity_projection repoOne [] [propWitness] rfl).1

/-!
Properties of binary64 rounding needed for the rate conversion.
-/

lemma roundHalfEven_floor_le (n : ℚ) : ⌊n⌋ ≤ roundHalfEven n := by
  unfold roundHalfEven
  split_ifs <;> omega

lemma roundHalfEven_le (n : ℚ) : (roundHalfEven n : ℚ) ≤ n + 1 / 2 := by
  have h1 := Int.floor_le n
  have h2 := Int.lt_floor_add_one n
  unfold roundHalfEven
  split_ifs <;> push_cast <;> linarith

lemma roundHalfEven_intCast (j : ℤ) : roundHalfEven (j : ℚ) = j := by
  unfold roundHalfEven
  rw [Int.floor_intCast]
  rw [if_pos (by norm_num)]

lemma le_roundHalfEven_of_int (j : ℤ) (n : ℚ) (h : (j : ℚ) ≤ n) : j ≤ roundHalfEven n :=
  le_trans (Int.le_floor.mpr h) (roundHalfEven_floor_le n)

lemma roundHalfEven_eq_add_one (n : ℚ) (m : ℤ) (h1 : (m : ℚ) ≤ n)
    (h2 : (m : ℚ) + 1 / 2 < n) (h3 : n < (m : ℚ) + 1) : roundHalfEven n = m + 1 := by
  have hm : ⌊n⌋ = m := by
    rw [Int.floor_eq_iff]
    exact ⟨h1, by linarith⟩
  unfold roundHalfEven
  rw [hm, if_neg (by linarith), if_pos (by linarith)]

lemma rnd_of_pos (x : ℚ) (hx : 0 < x) :
    rnd x = (roundHalfEven (x / 2 ^ (Int.log 2 x - 52)) : ℚ) * 2 ^ (Int.log 2 x - 52) := by
  unfold rnd
  rw [if_neg (not_le.mpr hx)]

lemma rnd_nonneg (x : ℚ) : 0 ≤ rnd x := by
  by_cases hx : x ≤ 0
  · unfold rnd
    rw [if_pos hx]
  · push_neg at hx
    rw [rnd_of_pos x hx]
    have hu : (0:ℚ) < 2 ^ (Int.log 2 x - 52) := by positivity
    have hj : (0:ℤ) ≤ roundHalfEven (x / 2 ^ (Int.log 2 x - 52)) := by
      refine le_roundHalfEven_of_int 0 _ ?_
      have : (0:ℚ) ≤ x / 2 ^ (Int.log 2 x - 52) := by positivity
      simpa using this
    have hj2 : (0:ℚ) ≤ (roundHalfEven (x / 2 ^ (Int.log 2 x - 52)) : ℚ) := by exact_mod_cast hj
    exact mul_nonneg hj2 hu.le

lemma rnd_le_add (x : ℚ) (hx : 0 < x) : rnd x ≤ x + 2 ^ (Int.log 2 x - 53) := by
  rw [rnd_of_pos x hx]
  have hu : (0:ℚ) < 2 ^ (Int.log 2 x - 52) := by positivity
  have h1 : (roundHalfEven (x / 2 ^ (Int.log 2 x - 52)) : ℚ) ≤
      x / 2 ^ (Int.log 2 x - 52) + 1 / 2 := roundHalfEven_le _
  have h2 : (2:ℚ) ^ (Int.log 2 x - 52) = 2 ^ (Int.log 2 x - 53) * 2 := by
    rw [← zpow_add_one₀ (two_ne_zero : (2:ℚ) ≠ 0)]
    ring_nf
  calc (roundHalfEven (x / 2 ^ (Int.log 2 x - 52)) : ℚ) * 2 ^ (Int.log 2 x - 52)
      ≤ (x / 2 ^ (Int.log 2 x - 52) + 1 / 2) * 2 ^ (Int.log 2 x - 52) :=
        mul_le_mul_of_nonneg_right h1 hu.le
    _ = x + 2 ^ (Int.log 2 x - 52) / 2 := by field_simp; ring
    _ = x + 2 ^ (Int.log 2 x - 53) := by rw [h2]; ring

lemma rnd_grid_le (x : ℚ) (hx : 0 < x) (j : ℤ)
    (hj : (j : ℚ) * 2 ^ (Int.log 2 x - 52) ≤ x) :
    (j : ℚ) * 2 ^ (Int.log 2 x - 52) ≤ rnd x := by
  rw [rnd_of_pos x hx]
  have hu : (0:ℚ) < 2 ^ (Int.log 2 x - 52) := by positivity
  have h1 : j ≤ roundHalfEven (x / 2 ^ (Int.log 2 x - 52)) :=
    le_roundHalfEven_of_int j _ ((le_div_iff₀ hu).mpr hj)
  have h2 : (j : ℚ) ≤ (roundHalfEven (x / 2 ^ (Int.log 2 x - 52)) : ℚ) := by exact_mod_cast h1
  exact mul_le_mul_of_nonneg_right h2 hu.le

lemma rnd_eq_self_of_int_mul (x : ℚ) (hx : 0 < x) (j : ℤ)
    (hj : x = (j : ℚ) * 2 ^ (Int.log 2 x - 52)) : rnd x = x := by
  rw [rnd_of_pos x hx]
  have hu : (2:ℚ) ^ (Int.log 2 x - 52) ≠ 0 := by positivity
  have h1 : x / 2 ^ (Int.log 2 x - 52) = (j : ℚ) := by
    rw [div_eq_iff hu]
    exact hj
  rw [h1, roundHalfEven_intCast, ← hj]

lemma rnd_natCast (n : ℕ) (hn : n < 2 ^ 53) : rnd (n : ℚ) = n := by
  rcases Nat.eq_zero_or_pos n with h0 | hpos
  · subst h0
    unfold rnd
    rw [if_pos (by norm_num)]
    norm_num
  · have hx : (0:ℚ) < n := by exact_mod_cast hpos
    have heU : Int.log 2 (n : ℚ) ≤ 52 := by
      by_contra h
      push_neg at h
      have h1 : (2:ℚ) ^ Int.log 2 (n : ℚ) ≤ n :=
        Int.zpow_log_le_self (by norm_num) hx
      have h2 : ((2:ℚ) ^ (53:ℤ)) ≤ (2:ℚ) ^ Int.log 2 (n : ℚ) :=
        (zpow_le_zpow_iff_right₀ (by norm_num : (1:ℚ) < 2)).mpr h
      have h3 : ((2:ℚ) ^ (53:ℤ)) = ((2 ^ 53 : ℕ) : ℚ) := by push_cast; norm_num
      have h4 : ((n:ℕ):ℚ) < ((2 ^ 53 : ℕ) : ℚ) := by exact_mod_cast hn
      linarith
    apply rnd_eq_self_of_int_mul _ hx ((n : ℤ) * 2 ^ (52 - Int.log 2 (n : ℚ)).toNat)
    push_cast
    rw [← zpow_natCast (2:ℚ) (52 - Int.log 2 (n : ℚ)).toNat,
      Int.toNat_of_nonneg (by omega), mul_assoc,
      ← zpow_add₀ (two_ne_zero : (2:ℚ) ≠ 0)]
    norm_num

lemma log_eq_of_bounds (x : ℚ) (e : ℤ) (hx : 0 < x) (h1 : (2:ℚ) ^ e ≤ x)
    (h2 : x < 2 ^ (e + 1)) : Int.log 2 x = e := by
  have hlb := Int.zpow_log_le_self (R := ℚ) (b := 2) (by norm_num) hx
  have hub := Int.lt_zpow_succ_log_self (R := ℚ) (b := 2) (by norm_num) x
  have h3 : (2:ℚ) ^ Int.log 2 x < 2 ^ (e + 1) := lt_of_le_of_lt hlb h2
  have h4 : (2:ℚ) ^ e < 2 ^ (Int.log 2 x + 1) := lt_of_le_of_lt h1 hub
  have h5 := (zpow_lt_zpow_iff_right₀ (by norm_num : (1:ℚ) < 2)).mp h3
  have h6 := (zpow_lt_zpow_iff_right₀ (by norm_num : (1:ℚ) < 2)).mp h4
  omega

lemma rnd_round_up (x : ℚ) (e m : ℤ) (hx : 0 < x) (hlog : Int.log 2 x = e)
    (h1 : (m : ℚ) ≤ x / 2 ^ (e - 52)) (h2 : (m : ℚ) + 1 / 2 < x / 2 ^ (e - 52))
    (h3 : x / 2 ^ (e - 52) < (m : ℚ) + 1) :
    rnd x = ((m : ℚ) + 1) * 2 ^ (e - 52) := by
  rw [rnd_of_pos x hx, hlog, roundHalfEven_eq_add_one _ m h1 h2 h3]
  push_cast
  ring

lemma rnd_nat_le (s : Nat) (x : ℚ) (hx : 0 < x) (hlog : Int.log 2 x ≤ 52)
    (hsx : (s : ℚ) ≤ x) : (s : ℚ) ≤ rnd x := by
  have hk : (((52 - Int.log 2 x).toNat : ℕ) : ℤ) = 52 - Int.log 2 x :=
    Int.toNat_of_nonneg (by omega)
  have hcast : (((s : ℤ) * 2 ^ (52 - Int.log 2 x).toNat : ℤ) : ℚ) *
      2 ^ (Int.log 2 x - 52) = (s : ℚ) := by
    push_cast
    rw [← zpow_natCast (2:ℚ) (52 - Int.log 2 x).toNat, hk, mul_assoc,
      ← zpow_add₀ (two_ne_zero : (2:ℚ) ≠ 0),
      show (52 - Int.log 2 x) + (Int.log 2 x - 52) = 0 by ring, zpow_zero, mul_one]
  have h := rnd_grid_le x hx ((s : ℤ) * 2 ^ (52 - Int.log 2 x).toNat)
    (by rw [hcast]; exact hsx)
  rw [hcast] at h
  exact h

lemma perSeconds_eq_floor (d : Nat) (hd : d < 2 ^ 24 * nsPerSec) :
    perSecondsOfDuration d = d / nsPerSec := by
  unfold perSecondsOfDuration durationSeconds goUint64OfFloat
  have hns_pos : 0 < nsPerSec := by norm_num [nsPerSec]
  have hsec_lt : d / nsPerSec < 16777216 := by
    rw [Nat.div_lt_iff_lt_mul hns_pos]
    calc d < 2 ^ 24 * nsPerSec := hd
      _ = 16777216 * nsPerSec := by norm_num
  have hnsec_le : d % nsPerSec ≤ 999999999 := by
    have h := Nat.mod_lt d hns_pos
    have h2 : nsPerSec = 1000000000 := rfl
    omega
  have hrsec : rnd ((d / nsPerSec : Nat) : ℚ) = ((d / nsPerSec : Nat) : ℚ) :=
    rnd_natCast _ (lt_of_lt_of_le hsec_lt (by norm_num))
  have hrnsec : rnd ((d % nsPerSec : Nat) : ℚ) = ((d % nsPerSec : Nat) : ℚ) :=
    rnd_natCast _ (lt_of_le_of_lt hnsec_le (by norm_num))
  rw [hrsec, hrnsec]
  have hcast_ns : ((nsPerSec : Nat) : ℚ) = 1000000000 := by norm_num [nsPerSec]
  have hs_nonneg : (0:ℚ) ≤ ((d / nsPerSec : Nat) : ℚ) := Nat.cast_nonneg _
  have hs_le : ((d / nsPerSec : Nat) : ℚ) ≤ 16777215 := by
    exact_mod_cast (by omega : d / nsPerSec ≤ 16777215)
  by_cases h0 : d % nsPerSec = 0
  · rw [h0, Nat.cast_zero, zero_div,
      show rnd 0 = 0 from by unfold rnd; rw [if_pos le_rfl], add_zero, hrsec,
      Int.floor_natCast]
    exact Int.toNat_natCast _
  · have hm_pos : 0 < d % nsPerSec := Nat.pos_of_ne_zero h0
    have hm1 : (1:ℚ) ≤ ((d % nsPerSec : Nat) : ℚ) := by exact_mod_cast hm_pos
    have hm2 : ((d % nsPerSec : Nat) : ℚ) ≤ 999999999 := by exact_mod_cast hnsec_le
    have hq_pos : (0:ℚ) < ((d % nsPerSec : Nat) : ℚ) / ((nsPerSec : Nat) : ℚ) := by
      rw [hcast_ns]
      apply div_pos (by linarith) (by norm_num)
    have hq_le : ((d % nsPerSec : Nat) : ℚ) / ((nsPerSec : Nat) : ℚ) ≤
        999999999 / 1000000000 := by
      rw [hcast_ns]
      gcongr
    have hq_lt1 : ((d % nsPerSec : Nat) : ℚ) / ((nsPerSec : Nat) : ℚ) < 1 := by
      have h1 : (999999999:ℚ) / 1000000000 < 1 := by norm_num
      linarith
    have hlq : Int.log 2 (((d % nsPerSec : Nat) : ℚ) / ((nsPerSec : Nat) : ℚ)) ≤ -1 := by
      by_contra h
      push_neg at h
      have h3 : ((2:ℚ)) ^ (0:ℤ) ≤
          (2:ℚ) ^ Int.log 2 (((d % nsPerSec : Nat) : ℚ) / ((nsPerSec : Nat) : ℚ)) :=
        (zpow_le_zpow_iff_right₀ (by norm_num : (1:ℚ) < 2)).mpr (by omega)
      have h4 := Int.zpow_log_le_self (R := ℚ) (b := 2) (by norm_num) hq_pos
      push_cast at h4
      rw [zpow_zero] at h3
      linarith
    have hqhat_le : rnd (((d % nsPerSec : Nat) : ℚ) / ((nsPerSec : Nat) : ℚ)) ≤
        ((d % nsPerSec : Nat) : ℚ) / ((nsPerSec : Nat) : ℚ) + 1 / 18014398509481984 := by
      have h1 := rnd_le_add _ hq_pos
      have h5 : (2:ℚ) ^ (Int.log 2 (((d % nsPerSec : Nat) : ℚ) / ((nsPerSec : Nat) : ℚ)) - 53) ≤
          2 ^ (-54:ℤ) :=
        (zpow_le_zpow_iff_right₀ (by norm_num : (1:ℚ) < 2)).mpr (by omega)
      have hA : (2:ℚ) ^ (-54:ℤ) = 1 / 18014398509481984 := by norm_num
      rw [hA] at h5
      linarith
    have hqhat_pos : 0 < rnd (((d % nsPerSec : Nat) : ℚ) / ((nsPerSec : Nat) : ℚ)) := by
      have h7 : (2:ℚ) ^ (Int.log 2 (((d % nsPerSec : Nat) : ℚ) / ((nsPerSec : Nat) : ℚ)) - 52) ≤
          2 ^ Int.log 2 (((d % nsPerSec : Nat) : ℚ) / ((nsPerSec : Nat) : ℚ)) :=
        (zpow_le_zpow_iff_right₀ (by norm_num : (1:ℚ) < 2)).mpr (by omega)
      have h8 := Int.zpow_log_le_self (R := ℚ) (b := 2) (by norm_num) hq_pos
      push_cast at h8
      have h6 : ((1:ℤ) : ℚ) *
          2 ^ (Int.log 2 (((d % nsPerSec : Nat) : ℚ) / ((nsPerSec : Nat) : ℚ)) - 52) ≤
          ((d % nsPerSec : Nat) : ℚ) / ((nsPerSec : Nat) : ℚ) := by
        push_cast
        rw [one_mul]
        exact le_trans h7 h8
      have h9 := rnd_grid_le _ hq_pos 1 h6
      have h10 : (0:ℚ) < ((1:ℤ) : ℚ) *
          2 ^ (Int.log 2 (((d % nsPerSec : Nat) : ℚ) / ((nsPerSec : Nat) : ℚ)) - 52) := by
        positivity
      linarith
    have hqhat_lt1 : rnd (((d % nsPerSec : Nat) : ℚ) / ((nsPerSec : Nat) : ℚ)) < 1 := by
      have h1 : (999999999:ℚ) / 1000000000 + 1 / 18014398509481984 < 1 := by norm_num
      linarith
    have hx_pos : (0:ℚ) < ((d / nsPerSec : Nat) : ℚ) +
        rnd (((d % nsPerSec : Nat) : ℚ) / ((nsPerSec : Nat) : ℚ)) := by
      linarith
    have hx_lt : ((d / nsPerSec : Nat) : ℚ) +
        rnd (((d % nsPerSec : Nat) : ℚ) / ((nsPerSec : Nat) : ℚ)) < 16777216 := by
      linarith
    have hlx : Int.log 2 (((d / nsPerSec : Nat) : ℚ) +
        rnd (((d % nsPerSec : Nat) : ℚ) / ((nsPerSec : Nat) : ℚ))) ≤ 23 := by
      by_contra h
      push_neg at h
      have h1 : (2:ℚ) ^ (24:ℤ) ≤ (2:ℚ) ^ Int.log 2 (((d / nsPerSec : Nat) : ℚ) +
          rnd (((d % nsPerSec : Nat) : ℚ) / ((nsPerSec : Nat) : ℚ))) :=
        (zpow_le_zpow_iff_right₀ (by norm_num : (1:ℚ) < 2)).mpr (by omega)
      have h2 := Int.zpow_log_le_self (R := ℚ) (b := 2) (by norm_num) hx_pos
      push_cast at h2
      have h3 : ((2:ℚ) ^ (24:ℤ)) = 16777216 := by norm_num
      linarith
    have hlow : ((d / nsPerSec : Nat) : ℚ) ≤ rnd (((d / nsPerSec : Nat) : ℚ) +
        rnd (((d % nsPerSec : Nat) : ℚ) / ((nsPerSec : Nat) : ℚ))) := by
      apply rnd_nat_le _ _ hx_pos (by omega)
      linarith
    have hup : rnd (((d / nsPerSec : Nat) : ℚ) +
        rnd (((d % nsPerSec : Nat) : ℚ) / ((nsPerSec : Nat) : ℚ))) <
        ((d / nsPerSec : Nat) : ℚ) + 1 := by
      have h1 := rnd_le_add _ hx_pos
      have h2 : (2:ℚ) ^ (Int.log 2 (((d / nsPerSec : Nat) : ℚ) +
          rnd (((d % nsPerSec : Nat) : ℚ) / ((nsPerSec : Nat) : ℚ))) - 53) ≤
          2 ^ (-30:ℤ) :=
        (zpow_le_zpow_iff_right₀ (by norm_num : (1:ℚ) < 2)).mpr (by omega)
      have hB : (2:ℚ) ^ (-30:ℤ) = 1 / 1073741824 := by norm_num
      rw [hB] at h2
      have hnum2 : (999999999:ℚ) / 1000000000 + 1 / 18014398509481984 +
          1 / 1073741824 < 1 := by norm_num
      linarith
    have hfl : ⌊rnd (((d / nsPerSec : Nat) : ℚ) +
        rnd (((d % nsPerSec : Nat) : ℚ) / ((nsPerSec : Nat) : ℚ)))⌋ =
        ((d / nsPerSec : Nat) : ℤ) := by
      rw [Int.floor_eq_iff]
      constructor
      · rw [Int.cast_natCast]
        exact hlow
      · rw [Int.cast_natCast]
        exact hup
    rw [hfl]
    exact Int.toNat_natCast _

/-- Claim C7, amended.  For every proposal whose duration-based rate is
shorter than `2^24` seconds, the projection converts it to whole seconds by
truncating the sub-second remainder (floor of the duration in seconds), and
the byte-based rate passes through unchanged.  For longer durations the
float64 arithmetic inside `Duration.Seconds()` can round up instead (see
the counterexample at 16777216.999999999 s). -/
theorem C7_rate_conversion (p : ServiceProposal)
    (h : p.paymentMethod.rate.perTime < 2 ^ 24 * nsPerSec) :
    (proposalToRes p).paymentMethod.rate.perSeconds =
      p.paymentMethod.rate.perTime / nsPerSec ∧
    (proposalToRes p).paymentMethod.rate.perBytes = p.paymentMethod.rate.perByte :=
  ⟨perSeconds_eq_floor _ h, rfl⟩

/-- Witness proposal with a 1.5-second rate duration. -/
def propSecond : ServiceProposal :=
  { propWitness with
    paymentMethod :=
      { methodType := "PER_TIME"
        price := { amount := 100, currency := "MYST" }
        rate := { perTime := 1500000000, perByte := 7 } } }

/-- Witness for C7 at a 1.5 s duration. -/
theorem C7_rate_conversion_witness :
    (proposalToRes propSecond).paymentMethod.rate.perSeconds =
      propSecond.paymentMethod.rate.perTime / nsPerSec ∧
    (proposalToRes propSecond).paymentMethod.rate.perBytes =
      propSecond.paymentMethod.rate.perByte :=
  C7_rate_conversion propSecond (by norm_num [propSecond, propWitness, nsPerSec])

/-- Counterexample to claim C7 as stated: at a duration of
16777216999999999 ns (2^24 seconds plus 999999999 ns) the float64 addition
inside `Duration.Seconds()` rounds up to 16777217, so the projected
`per_seconds` is 16777217 while the floor of the duration in seconds is
16777216: the conversion does not truncate. -/
theorem C7_float_rounds_up :
    perSecondsOfDuration 16777216999999999 = 16777217 ∧
    (16777216999999999 : Nat) / nsPerSec = 16777216 := by
  constructor
  · unfold perSecondsOfDuration durationSeconds goUint64OfFloat
    have h1 : ((16777216999999999 : Nat) / nsPerSec) = 16777216 := by norm_num [nsPerSec]
    have h2 : ((16777216999999999 : Nat) % nsPerSec) = 999999999 := by norm_num [nsPerSec]
    rw [h1, h2]
    have h3 : rnd ((16777216 : Nat) : ℚ) = ((16777216 : Nat) : ℚ) :=
      rnd_natCast _ (by norm_num)
    have h4 : rnd ((999999999 : Nat) : ℚ) = ((999999999 : Nat) : ℚ) :=
      rnd_natCast _ (by norm_num)
    rw [h3, h4]
    have hcast_ns : ((nsPerSec : Nat) : ℚ) = 1000000000 := by norm_num [nsPerSec]
    have hc1 : ((16777216 : Nat) : ℚ) = 16777216 := by norm_num
    have hc2 : ((999999999 : Nat) : ℚ) = 999999999 := by norm_num
    rw [hcast_ns, hc1, hc2]
    have hlogq : Int.log 2 ((999999999 : ℚ) / 1000000000) = -1 :=
      log_eq_of_bounds _ _ (by norm_num) (by norm_num) (by norm_num)
    have hq : rnd ((999999999 : ℚ) / 1000000000) =
        (9007199245733793 : ℚ) / 9007199254740992 := by
      have h := rnd_round_up ((999999999 : ℚ) / 1000000000) (-1) 9007199245733792
        (by norm_num) hlogq (by norm_num) (by norm_num) (by norm_num)
      rw [h]
      norm_num
    rw [hq]
    have hlogx : Int.log 2 ((16777216 : ℚ) + 9007199245733793 / 9007199254740992) = 24 :=
      log_eq_of_bounds _ _ (by norm_num) (by norm_num) (by norm_num)
    have hx : rnd ((16777216 : ℚ) + 9007199245733793 / 9007199254740992) = 16777217 := by
      have h := rnd_round_up _ 24 4503599895805951 (by norm_num) hlogx
        (by norm_num) (by norm_num) (by norm_num)
      rw [h]
      norm_num
    rw [hx]
    rw [show (16777217 : ℚ) = ((16777217 : ℤ) : ℚ) by norm_num, Int.floor_intCast]
    rfl
  · norm_num [nsPerSec]
